import Mathlib

/-!
# Verification of the `simple_platformer` simulation engine

Shallow embedding of `src/main.rs` of the `simple_platformer` repository.
The game state (`World`) holds an obstacle queue, the player entity, the
pending input intent, a tick counter and a random source.  The Rust code's
`VecDeque` is modelled as a `List` (front of the deque = head of the list),
Rust `isize` coordinates as `Int`, `usize` sizes and counters as `Nat`.
The zero-field marker structs `Obstacle` and `Player` carry no data and are
dropped from the tuples, so an entity is a `Position × Coverage` pair.

The thread-local random generator is modelled as an explicit stream of
pseudo-random draws: `Rng` carries a function `seq : Nat → Nat` together
with the index of the next draw, and `gen_range lo hi` consumes one draw
and returns a value in `[lo, hi)` (as `rand`'s two-argument `gen_range`
does), by reducing the raw draw modulo the interval length.  All claims
proved below hold for an arbitrary stream, so nothing depends on the
distribution of the draws.
-/

namespace Platformer

/-- `const WIDTH: usize = 480`. -/
def WIDTH : Nat := 480

/-- `const HEIGHT: usize = 480`. -/
def HEIGHT : Nat := 480

/-- `struct Position { x: isize, y: isize }`. -/
structure Position where
  x : Int
  y : Int
deriving DecidableEq, Repr

/-- `Position::new`. -/
def Position.new (x y : Int) : Position := ⟨x, y⟩

/-- Rust `Position::unsafe_left`: the unclamped decrement used for
obstacles, `self.x -= 1`, with no boundary guard. -/
def Position.unclamped_left (p : Position) : Position :=
  ⟨p.x - 1, p.y⟩

/-- `Position::left`: `if self.x != 0 { self.x -= 1 }`. -/
def Position.left (p : Position) : Position :=
  if p.x ≠ 0 then ⟨p.x - 1, p.y⟩ else p

/-- `Position::right`: `if self.x != WIDTH as isize { self.x += 1 }`. -/
def Position.right (p : Position) : Position :=
  if p.x ≠ (WIDTH : Int) then ⟨p.x + 1, p.y⟩ else p

/-- `Position::down`: `if self.y != HEIGHT as isize { self.y += 1 }`. -/
def Position.down (p : Position) : Position :=
  if p.y ≠ (HEIGHT : Int) then ⟨p.x, p.y + 1⟩ else p

/-- `Position::up`: `if self.y != 0 { self.y -= 1 }`. -/
def Position.up (p : Position) : Position :=
  if p.y ≠ 0 then ⟨p.x, p.y - 1⟩ else p

/-- `struct Coverage { width: usize, height: usize }`. -/
structure Coverage where
  width : Nat
  height : Nat
deriving DecidableEq, Repr

/-- `enum Action { Left, Right, Up, Down }`. -/
inductive Action where
  | Left
  | Right
  | Up
  | Down
deriving DecidableEq, Repr

/-- The random source: a stream of raw draws plus the index of the next
draw.  Models `rand::rngs::ThreadRng`. -/
structure Rng where
  seq : Nat → Nat
  idx : Nat

/-- `rng.gen_range(lo, hi)` of rand 0.x: one pseudo-random value in
`[lo, hi)`, together with the advanced generator. -/
def gen_range (r : Rng) (lo hi : Nat) : Nat × Rng :=
  (lo + r.seq r.idx % (hi - lo), ⟨r.seq, r.idx + 1⟩)

/-- `struct World`.  `obstacles` is the `VecDeque`, head = front. -/
structure World where
  obstacles : List (Position × Coverage)
  player : Position × Coverage
  last_action : Option Action
  timer : Nat
  rng : Rng

/-- `struct Rect` as produced by `Rect::new` in `obj_to_rect`. -/
structure Rect where
  x : Int
  y : Int
  w : Nat
  h : Nat
deriving DecidableEq, Repr

/-- `obj_to_rect`: clamps negative coordinates to `0` for drawing. -/
def obj_to_rect (p : Position) (c : Coverage) : Rect :=
  ⟨max p.x 0, max p.y 0, c.width, c.height⟩

/-- The closure `in_range` inside `is_collided`:
`|min, delta, x| min <= x && x <= min + (delta as isize)`. -/
def in_range (min : Int) (delta : Nat) (x : Int) : Bool :=
  decide (min ≤ x) && decide (x ≤ min + (delta : Int))

/-- `is_collided((f_pos, f_cov), (s_pos, _))`: true iff the second
argument's anchor point lies inside the first argument's closed extent.
The second argument's coverage is ignored, exactly as in the source. -/
def is_collided (f s : Position × Coverage) : Bool :=
  in_range f.1.x f.2.width s.1.x && in_range f.1.y f.2.height s.1.y

/-- `World::check_collisions`: any obstacle `(p, c)` with
`is_collided((p, c), (player_pos, player_cov))` — note the obstacle is the
FIRST argument and the player the SECOND. -/
def World.check_collisions (w : World) : Bool :=
  w.obstacles.any (fun oc => is_collided oc w.player)

/-- `World::cleanup`: pop obstacles from the front while the right edge
`x + width` is `≤ 0`; on meeting the first obstacle with `x + width > 0`,
push it back at the front and stop. -/
def cleanup : List (Position × Coverage) → List (Position × Coverage)
  | [] => []
  | o :: rest =>
    if 0 < o.1.x + (o.2.width : Int) then o :: rest else cleanup rest

/-- `World::SPAWN_DELAY`. -/
def SPAWN_DELAY : Nat := 150

/-- One iteration of the spawn loop body in `World::tick`: a fresh
obstacle at `x = WIDTH`, random `y ∈ [0, HEIGHT)` and a random size with
width and height independently drawn from `[5, 32)`.  Draw order follows
the source: `y`, then `width`, then `height`. -/
def spawnOne (r : Rng) : (Position × Coverage) × Rng :=
  let yr := gen_range r 0 HEIGHT
  let wr := gen_range yr.2 5 32
  let hr := gen_range wr.2 5 32
  ((⟨(WIDTH : Int), (yr.1 : Int)⟩, ⟨wr.1, hr.1⟩), hr.2)

/-- The spawn loop `for _ in 0..num { ... push_back ... }`, returning the
batch in push order together with the advanced generator. -/
def spawnN : Nat → Rng → List (Position × Coverage) × Rng
  | 0, r => ([], r)
  | Nat.succ n, r =>
    let o1 := spawnOne r
    let rest := spawnN n o1.2
    (o1.1 :: rest.1, rest.2)

/-- The `match self.last_action.take()` arms at the top of `World::tick`. -/
def apply_action (p : Position) : Option Action → Position
  | some Action.Left => p.left
  | some Action.Right => p.right
  | some Action.Up => p.up
  | some Action.Down => p.down
  | none => p

/-- The first two steps of `World::tick`: `self.timer += 1` and the
consume-and-apply of `self.last_action.take()`.  Factored out because
collision check A fires right after these two steps. -/
def World.afterIntent (w : World) : World :=
  { obstacles := w.obstacles
    player := (apply_action w.player.1 w.last_action, w.player.2)
    last_action := none
    timer := w.timer + 1
    rng := w.rng }

/-- `World::tick`, returning `(alive, new_state)`.  Order follows the
source exactly: timer increment and intent application, collision check A
(early return, no further mutation), unclamped leftward move of every
obstacle, cleanup, the spawn batch when `timer % SPAWN_DELAY == 0`,
collision check B. -/
def World.tick (w : World) : Bool × World :=
  let w1 := w.afterIntent
  if w1.check_collisions then (false, w1)
  else
    let w2 : World :=
      { obstacles := cleanup (w1.obstacles.map fun oc => (oc.1.unclamped_left, oc.2))
        player := w1.player
        last_action := w1.last_action
        timer := w1.timer
        rng := w1.rng }
    let w3 : World :=
      if w2.timer % SPAWN_DELAY = 0 then
        let nr := gen_range w2.rng 2 10
        let br := spawnN nr.1 nr.2
        { obstacles := w2.obstacles ++ br.1
          player := w2.player
          last_action := w2.last_action
          timer := w2.timer
          rng := br.2 }
      else w2
    if w3.check_collisions then (false, w3) else (true, w3)

/-- `World::new`: empty queue, player at a pseudo-random position in the
upper-left quadrant (`x` drawn from `[0, WIDTH/2)`, then `y` from
`[0, HEIGHT/2)`) with a fixed `5 × 5` coverage, timer `0`, no intent. -/
def World.new (seq : Nat → Nat) : World :=
  let r0 : Rng := ⟨seq, 0⟩
  let xr := gen_range r0 0 (WIDTH / 2)
  let yr := gen_range xr.2 0 (HEIGHT / 2)
  { obstacles := []
    player := (⟨(xr.1 : Int), (yr.1 : Int)⟩, ⟨5, 5⟩)
    last_action := none
    timer := 0
    rng := yr.2 }

/-- Recording an intent: the session loop's `world.last_action = Some(a)`,
overwriting any unconsumed prior intent. -/
def World.set_intent (w : World) (a : Action) : World :=
  { obstacles := w.obstacles
    player := w.player
    last_action := some a
    timer := w.timer
    rng := w.rng }

/-- `n` consecutive `tick` calls starting from `w` (states only). -/
def World.ticks (w : World) : Nat → World
  | 0 => w
  | Nat.succ n => (World.tick (w.ticks n)).2

/-- The fold body of `World::draw_obstacles`: invoke the callback only
when the accumulator is still `Ok`, otherwise carry the error along.  The
Rust `FnMut` callback is modelled with an explicit state `σ` threaded
only through actual invocations. -/
def draw_step {σ O E : Type} (drawer : σ → Rect → σ × Except E O)
    (acc : σ × Except E O) (val : Rect) : σ × Except E O :=
  match acc.2 with
  | Except.ok _ => drawer acc.1 val
  | Except.error e => (acc.1, Except.error e)

/-- `World::draw_obstacles`: fold the drawing callback over the obstacle
rectangles, starting from `Ok(Default::default())`. -/
def draw_obstacles {σ O E : Type} (drawer : σ → Rect → σ × Except E O)
    (dflt : O) (s0 : σ) (obstacles : List (Position × Coverage)) :
    σ × Except E O :=
  (obstacles.map fun oc => obj_to_rect oc.1 oc.2).foldl
    (draw_step drawer) (s0, Except.ok dflt)

/-- Specification-side drawing loop: invoke the callback on each rectangle
in order and STOP at the first error, returning it; rectangles after the
first failure are never passed to the callback (the callback state `σ` is
left untouched from that point on). -/
def drawSpec {σ O E : Type} (drawer : σ → Rect → σ × Except E O) :
    σ → Except E O → List Rect → σ × Except E O
  | s, res, [] => (s, res)
  | s, res, r :: rest =>
    match res with
    | Except.ok _ =>
      let sr := drawer s r
      drawSpec drawer sr.1 sr.2 rest
    | Except.error e => (s, Except.error e)

/-- `enum Finished { Exit, Restart, Error }` from the shell. -/
inductive Finished where
  | Exit
  | Restart
  | Error
deriving DecidableEq, Repr

/-- The shell's handling of `world.draw_obstacles(...)` in `run`:
`if let Err(e) = ... { return Finished::Error }`, otherwise the loop
continues (`none`). -/
def handle_draw_result {O E : Type} : Except E O → Option Finished
  | Except.error _ => some Finished.Error
  | Except.ok _ => none

/-- The reachable `World` states: those produced from a fresh `World::new`
by any interleaving of intent recordings and `tick` calls. -/
inductive Reachable : World → Prop
  | new (seq : Nat → Nat) : Reachable (World.new seq)
  | intent {w : World} (a : Action) : Reachable w → Reachable (w.set_intent a)
  | step {w : World} : Reachable w → Reachable (World.tick w).2

/-- Spec-side test used to phrase what `cleanup` removes: an obstacle is
expired when its right edge `x + width` is `≤ 0`. -/
def rightEdgeExpired (oc : Position × Coverage) : Bool :=
  decide (oc.1.x + (oc.2.width : Int) ≤ 0)

/-- The conjunction claimed for the four clamped moves at an in-bounds
position: the result stays in `[0, WIDTH] × [0, HEIGHT]`, a move into the
boundary is a no-op, and any other move changes the coordinate by exactly
one while leaving the other coordinate alone. -/
def clampedMovesOk (p : Position) : Prop :=
  (0 ≤ p.left.x ∧ p.left.x ≤ (WIDTH : Int) ∧ p.left.y = p.y) ∧
  (0 ≤ p.right.x ∧ p.right.x ≤ (WIDTH : Int) ∧ p.right.y = p.y) ∧
  (0 ≤ p.up.y ∧ p.up.y ≤ (HEIGHT : Int) ∧ p.up.x = p.x) ∧
  (0 ≤ p.down.y ∧ p.down.y ≤ (HEIGHT : Int) ∧ p.down.x = p.x) ∧
  (p.x = 0 → p.left = p) ∧ (p.x ≠ 0 → p.left.x = p.x - 1) ∧
  (p.x = (WIDTH : Int) → p.right = p) ∧ (p.x ≠ (WIDTH : Int) → p.right.x = p.x + 1) ∧
  (p.y = 0 → p.up = p) ∧ (p.y ≠ 0 → p.up.y = p.y - 1) ∧
  (p.y = (HEIGHT : Int) → p.down = p) ∧ (p.y ≠ (HEIGHT : Int) → p.down.y = p.y + 1)

/-- The obstacle queue of a tick that passes collision check A, after the
uniform unclamped left move and the cleanup but before any spawn. -/
def movedCleaned (w : World) : List (Position × Coverage) :=
  cleanup (w.obstacles.map fun oc => (oc.1.unclamped_left, oc.2))

/-- A concrete state whose obstacle at `(8, 8)` with size `5 × 5` contains
the player anchor `(10, 10)`, so collision check A fires. -/
def exampleCollidingWorld : World :=
  { obstacles := [(⟨8, 8⟩, ⟨5, 5⟩)]
    player := (⟨10, 10⟩, ⟨5, 5⟩)
    last_action := none
    timer := 0
    rng := ⟨fun _ => 0, 0⟩ }

/-- A concrete obstacle-free state whose next tick has counter `150`, a
multiple of `SPAWN_DELAY`, so a spawn batch is produced. -/
def exampleSpawnWorld : World :=
  { obstacles := []
    player := (⟨10, 10⟩, ⟨5, 5⟩)
    last_action := none
    timer := 149
    rng := ⟨fun _ => 0, 0⟩ }

/-- The player-position invariant of the specification. -/
def PlayerInBounds (w : World) : Prop :=
  0 ≤ w.player.1.x ∧ w.player.1.x ≤ (WIDTH : Int) ∧
  0 ≤ w.player.1.y ∧ w.player.1.y ≤ (HEIGHT : Int)

/-- The queue-ordering invariant: obstacle `x`-coordinates are
non-decreasing from the front of the queue to the back. -/
def ObstaclesOrdered (w : World) : Prop :=
  List.Chain' (fun a b => a.1.x ≤ b.1.x) w.obstacles

/-- Auxiliary invariant: every obstacle sits at `x ≤ WIDTH`. -/
def ObstaclesLeWidth (w : World) : Prop :=
  ∀ oc ∈ w.obstacles, oc.1.x ≤ (WIDTH : Int)

/-- The combined state invariant carried through the reachability
induction. -/
def WorldInv (w : World) : Prop :=
  PlayerInBounds w ∧ ObstaclesOrdered w ∧ ObstaclesLeWidth w

/-- An always-succeeding drawing callback that counts its invocations. -/
def exampleDrawer : Nat → Rect → Nat × Except Nat Nat :=
  fun s _ => (s + 1, Except.ok 0)

/-! ## Theorems -/

/-- C2: for every Position with `x ∈ [0, WIDTH]` and `y ∈ [0, HEIGHT]`,
each clamped move `left`/`right`/`up`/`down` keeps the moved coordinate in
its bound, is a no-op exactly at the boundary, and otherwise changes the
coordinate by exactly `±1`. -/
theorem C2_clamped_moves (p : Position) (hx0 : 0 ≤ p.x) (hx1 : p.x ≤ (WIDTH : Int))
    (hy0 : 0 ≤ p.y) (hy1 : p.y ≤ (HEIGHT : Int)) : clampedMovesOk p := by
  unfold clampedMovesOk Position.left Position.right Position.up Position.down
  refine ⟨?_, ?_, ?_, ?_, ?_, ?_, ?_, ?_, ?_, ?_, ?_, ?_⟩ <;>
    first
      | (intro h; simp only [h]; split_ifs <;> simp_all)
      | (split_ifs <;> simp_all <;> omega)

/-- Witness for C2 at the in-bounds position `(3, 4)`. -/
theorem C2_clamped_moves_witness :
    (0 ≤ (3 : Int) ∧ (3 : Int) ≤ (WIDTH : Int) ∧ 0 ≤ (4 : Int) ∧ (4 : Int) ≤ (HEIGHT : Int)) ∧
    clampedMovesOk ⟨3, 4⟩ :=
  ⟨⟨by decide, by decide, by decide, by decide⟩,
    C2_clamped_moves ⟨3, 4⟩ (by decide) (by decide) (by decide) (by decide)⟩

/-- C10: the clamped moves guard only against the exact boundary value.
Below `0`, `left` still decrements; above `WIDTH`, `right` still
increments; likewise `up` below `0` and `down` above `HEIGHT`. -/
theorem C10_no_clamp_out_of_range :
    (∀ p : Position, p.x < 0 → p.left.x = p.x - 1) ∧
    (∀ p : Position, (WIDTH : Int) < p.x → p.right.x = p.x + 1) ∧
    (∀ p : Position, p.y < 0 → p.up.y = p.y - 1) ∧
    (∀ p : Position, (HEIGHT : Int) < p.y → p.down.y = p.y + 1) := by
  refine ⟨fun p h => ?_, fun p h => ?_, fun p h => ?_, fun p h => ?_⟩ <;>
    · simp only [Position.left, Position.right, Position.up, Position.down]
      split_ifs <;> simp_all

/-- Witness for C10 at `(-5, 0)`, `(481, 0)`, `(0, -5)` and `(0, 481)`. -/
theorem C10_no_clamp_out_of_range_witness :
    ((-5 : Int) < 0 ∧ (Position.mk (-5) 0).left.x = -5 - 1) ∧
    ((WIDTH : Int) < 481 ∧ (Position.mk 481 0).right.x = 481 + 1) ∧
    ((-5 : Int) < 0 ∧ (Position.mk 0 (-5)).up.y = -5 - 1) ∧
    ((HEIGHT : Int) < 481 ∧ (Position.mk 0 481).down.y = 481 + 1) :=
  ⟨⟨by decide, C10_no_clamp_out_of_range.1 ⟨-5, 0⟩ (by decide)⟩,
    ⟨by decide, C10_no_clamp_out_of_range.2.1 ⟨481, 0⟩ (by decide)⟩,
    ⟨by decide, C10_no_clamp_out_of_range.2.2.1 ⟨0, -5⟩ (by decide)⟩,
    ⟨by decide, C10_no_clamp_out_of_range.2.2.2 ⟨0, 481⟩ (by decide)⟩⟩

/-- C3: `cleanup` drops exactly the maximal all-expired front segment of
the queue (`dropWhile` of the right-edge test), so the remaining obstacles
keep their original relative order and the first survivor has a positive
right edge; concretely, an expired obstacle sitting behind a live one is
NOT removed. -/
theorem C3_cleanup_drops_expired_front :
    (∀ l : List (Position × Coverage), cleanup l = l.dropWhile rightEdgeExpired) ∧
    (∀ l : List (Position × Coverage),
      l.takeWhile rightEdgeExpired ++ cleanup l = l) ∧
    cleanup [(⟨1, 0⟩, ⟨5, 5⟩), (⟨-20, 0⟩, ⟨5, 5⟩)] =
      [(⟨1, 0⟩, ⟨5, 5⟩), (⟨-20, 0⟩, ⟨5, 5⟩)] := by
  have hdw : ∀ l : List (Position × Coverage), cleanup l = l.dropWhile rightEdgeExpired := by
    intro l
    induction l with
    | nil => rfl
    | cons o rest ih =>
      by_cases h : 0 < o.1.x + (o.2.width : Int)
      · have hexp : rightEdgeExpired o = false := by
          simp only [rightEdgeExpired, decide_eq_false_iff_not]
          omega
        simp [cleanup, h, List.dropWhile_cons, hexp]
      · have hexp : rightEdgeExpired o = true := by
          simp only [rightEdgeExpired, decide_eq_true_eq]
          omega
        simp [cleanup, h, List.dropWhile_cons, hexp, ih]
  refine ⟨hdw, fun l => ?_, by decide⟩
  rw [hdw l]
  exact List.takeWhile_append_dropWhile rightEdgeExpired l

/-- C1 counterexample: the player box is anchored at `(10, 10)` with size
`5 × 5` and the obstacle at `(12, 12)`, so the obstacle's anchor lies
within the player's closed extent (first conjunct, the claim's own
overlap condition) — yet the game's collision check is `false`, because
`World::check_collisions` passes the obstacle as the FIRST argument of
`is_collided`, testing the player's anchor against the obstacle's extent
rather than the other way around. -/
theorem C1_roles_counterexample :
    ((10 : Int) ≤ 12 ∧ (12 : Int) ≤ 10 + 5 ∧ (10 : Int) ≤ 12 ∧ (12 : Int) ≤ 10 + 5) ∧
    World.check_collisions
      { obstacles := [(⟨12, 12⟩, ⟨5, 5⟩)]
        player := (⟨10, 10⟩, ⟨5, 5⟩)
        last_action := none
        timer := 0
        rng := ⟨fun _ => 0, 0⟩ } = false :=
  ⟨⟨by decide, by decide, by decide, by decide⟩, by decide⟩

/-- C1 (amended): `is_collided f s` is true exactly when the SECOND box's
anchor lies in the FIRST box's closed extent; the spec's two concrete
examples hold with the player box passed first; and since
`World::check_collisions` passes each obstacle first and the player
second, the in-game collision holds exactly when the PLAYER's anchor lies
within some obstacle's closed extent. -/
theorem C1_collision_predicate :
    (∀ f s : Position × Coverage,
      is_collided f s = true ↔
        (f.1.x ≤ s.1.x ∧ s.1.x ≤ f.1.x + (f.2.width : Int) ∧
         f.1.y ≤ s.1.y ∧ s.1.y ≤ f.1.y + (f.2.height : Int))) ∧
    is_collided (⟨10, 10⟩, ⟨5, 5⟩) (⟨12, 12⟩, ⟨5, 5⟩) = true ∧
    is_collided (⟨10, 10⟩, ⟨5, 5⟩) (⟨16, 10⟩, ⟨5, 5⟩) = false ∧
    (∀ w : World,
      w.check_collisions = true ↔
        ∃ oc ∈ w.obstacles,
          oc.1.x ≤ w.player.1.x ∧ w.player.1.x ≤ oc.1.x + (oc.2.width : Int) ∧
          oc.1.y ≤ w.player.1.y ∧ w.player.1.y ≤ oc.1.y + (oc.2.height : Int)) := by
  have hiff : ∀ f s : Position × Coverage,
      is_collided f s = true ↔
        (f.1.x ≤ s.1.x ∧ s.1.x ≤ f.1.x + (f.2.width : Int) ∧
         f.1.y ≤ s.1.y ∧ s.1.y ≤ f.1.y + (f.2.height : Int)) := by
    intro f s
    simp only [is_collided, in_range, Bool.and_eq_true, decide_eq_true_eq]
    tauto
  refine ⟨hiff, by decide, by decide, fun w => ?_⟩
  simp only [World.check_collisions, List.any_eq_true]
  constructor
  · rintro ⟨oc, hmem, hcol⟩
    exact ⟨oc, hmem, (hiff oc w.player).mp hcol⟩
  · rintro ⟨oc, hmem, hcond⟩
    exact ⟨oc, hmem, (hiff oc w.player).mpr hcond⟩

/-- C4: when collision check A fires (after the timer increment and the
intent application the player overlaps some obstacle in the sense of
`check_collisions`), `tick` returns `alive = false` with the queue, the
random source — and hence any pending spawn — untouched, while the timer
increment and the player's own movement have been applied. -/
theorem C4_collision_a_freezes (w : World)
    (h : (World.afterIntent w).check_collisions = true) :
    World.tick w = (false, World.afterIntent w) ∧
    (World.tick w).2.obstacles = w.obstacles ∧
    (World.tick w).2.timer = w.timer + 1 ∧
    (World.tick w).2.player = (apply_action w.player.1 w.last_action, w.player.2) ∧
    (World.tick w).2.rng = w.rng := by
  have ht : World.tick w = (false, World.afterIntent w) := by
    unfold World.tick
    simp [h]
  refine ⟨ht, ?_, ?_, ?_, ?_⟩ <;> rw [ht] <;> rfl

/-- Witness for C4: in `exampleCollidingWorld` the obstacle at `(8, 8)`
size `5 × 5` contains the player anchor `(10, 10)`. -/
theorem C4_collision_a_freezes_witness :
    (World.afterIntent exampleCollidingWorld).check_collisions = true ∧
    (World.tick exampleCollidingWorld = (false, World.afterIntent exampleCollidingWorld) ∧
     (World.tick exampleCollidingWorld).2.obstacles = exampleCollidingWorld.obstacles ∧
     (World.tick exampleCollidingWorld).2.timer = exampleCollidingWorld.timer + 1 ∧
     (World.tick exampleCollidingWorld).2.player =
       (apply_action exampleCollidingWorld.player.1 exampleCollidingWorld.last_action,
        exampleCollidingWorld.player.2) ∧
     (World.tick exampleCollidingWorld).2.rng = exampleCollidingWorld.rng) :=
  ⟨by decide, C4_collision_a_freezes exampleCollidingWorld (by decide)⟩

/-- `gen_range` never goes below its lower bound. -/
theorem gen_range_lb (r : Rng) (lo hi : Nat) : lo ≤ (gen_range r lo hi).1 :=
  Nat.le_add_right _ _

/-- `gen_range` stays below its upper bound when the interval is
non-empty. -/
theorem gen_range_ub (r : Rng) (lo hi : Nat) (h : lo < hi) :
    (gen_range r lo hi).1 < hi := by
  unfold gen_range
  have h2 : r.seq r.idx % (hi - lo) < hi - lo := Nat.mod_lt _ (by omega)
  simp only
  omega

/-- The spawn loop produces exactly the requested number of obstacles. -/
theorem spawnN_length (n : Nat) (r : Rng) : (spawnN n r).1.length = n := by
  induction n generalizing r with
  | zero => rfl
  | succ n ih => simp [spawnN, ih]

/-- A spawned obstacle's anchor x-coordinate. -/
theorem spawnOne_pos_x (r : Rng) : (spawnOne r).1.1.x = (WIDTH : Int) := rfl

/-- A spawned obstacle's anchor y-coordinate is the first draw. -/
theorem spawnOne_pos_y (r : Rng) :
    (spawnOne r).1.1.y = ((gen_range r 0 HEIGHT).1 : Int) := rfl

/-- A spawned obstacle's width is the second draw. -/
theorem spawnOne_width (r : Rng) :
    (spawnOne r).1.2.width = (gen_range (gen_range r 0 HEIGHT).2 5 32).1 := rfl

/-- A spawned obstacle's height is the third draw. -/
theorem spawnOne_height (r : Rng) :
    (spawnOne r).1.2.height =
      (gen_range (gen_range (gen_range r 0 HEIGHT).2 5 32).2 5 32).1 := rfl

/-- Every obstacle of a spawn batch sits at `x = WIDTH` with
`y ∈ [0, HEIGHT)` and width and height in `[5, 32)`. -/
theorem spawnN_mem (n : Nat) (r : Rng) :
    ∀ oc ∈ (spawnN n r).1,
      oc.1.x = (WIDTH : Int) ∧ 0 ≤ oc.1.y ∧ oc.1.y < (HEIGHT : Int) ∧
      5 ≤ oc.2.width ∧ oc.2.width < 32 ∧ 5 ≤ oc.2.height ∧ oc.2.height < 32 := by
  induction n generalizing r with
  | zero => simp [spawnN]
  | succ n ih =>
    intro oc hmem
    simp only [spawnN, List.mem_cons] at hmem
    rcases hmem with heq | hmem
    · subst heq
      have hy := gen_range_ub r 0 HEIGHT (by norm_num [HEIGHT])
      have hw0 := gen_range_lb (gen_range r 0 HEIGHT).2 5 32
      have hw1 := gen_range_ub (gen_range r 0 HEIGHT).2 5 32 (by norm_num)
      have hh0 := gen_range_lb (gen_range (gen_range r 0 HEIGHT).2 5 32).2 5 32
      have hh1 := gen_range_ub (gen_range (gen_range r 0 HEIGHT).2 5 32).2 5 32 (by norm_num)
      rw [spawnOne_pos_x, spawnOne_pos_y, spawnOne_width, spawnOne_height]
      exact ⟨rfl, Int.natCast_nonneg _, by exact_mod_cast hy, hw0, hw1, hh0, hh1⟩
    · exact ih _ oc hmem

/-- `afterIntent` keeps the obstacle queue. -/
theorem afterIntent_obstacles (w : World) : w.afterIntent.obstacles = w.obstacles := rfl

/-- `afterIntent` increments the timer. -/
theorem afterIntent_timer (w : World) : w.afterIntent.timer = w.timer + 1 := rfl

/-- `afterIntent` keeps the random source. -/
theorem afterIntent_rng (w : World) : w.afterIntent.rng = w.rng := rfl

/-- `afterIntent` keeps the player's coverage and applies the pending
intent to the player's position. -/
theorem afterIntent_player (w : World) :
    w.afterIntent.player = (apply_action w.player.1 w.last_action, w.player.2) := rfl

/-- On a tick that passes collision check A, the resulting obstacle queue
is the moved-and-cleaned queue, with the spawn batch appended exactly when
the incremented timer is a multiple of `SPAWN_DELAY`. -/
theorem tick_alive_obstacles (w : World)
    (h : (World.afterIntent w).check_collisions = false) :
    (World.tick w).2.obstacles =
      if (w.timer + 1) % SPAWN_DELAY = 0 then
        movedCleaned w ++ (spawnN (gen_range w.rng 2 10).1 (gen_range w.rng 2 10).2).1
      else movedCleaned w := by
  unfold World.tick movedCleaned
  simp only [h, Bool.false_eq_true, if_false, afterIntent_obstacles, afterIntent_timer,
    afterIntent_rng]
  split_ifs with h1 h2 h2 <;> rfl

/-- C5: on a tick that passes collision check A, exactly one spawn batch
of `n ∈ [2, 10)` obstacles is appended at the back of the queue when the
incremented counter is a multiple of `SPAWN_DELAY`, each obstacle anchored
at `x = WIDTH` with `y ∈ [0, HEIGHT)` and size drawn from `[5, 32)²`;
on every other tick nothing is appended. -/
theorem C5_spawn_cadence (w : World)
    (h : (World.afterIntent w).check_collisions = false) :
    ((w.timer + 1) % SPAWN_DELAY = 0 →
      ∃ batch : List (Position × Coverage),
        (World.tick w).2.obstacles = movedCleaned w ++ batch ∧
        2 ≤ batch.length ∧ batch.length < 10 ∧
        ∀ oc ∈ batch,
          oc.1.x = (WIDTH : Int) ∧ 0 ≤ oc.1.y ∧ oc.1.y < (HEIGHT : Int) ∧
          5 ≤ oc.2.width ∧ oc.2.width < 32 ∧ 5 ≤ oc.2.height ∧ oc.2.height < 32) ∧
    ((w.timer + 1) % SPAWN_DELAY ≠ 0 →
      (World.tick w).2.obstacles = movedCleaned w) := by
  constructor
  · intro hmod
    refine ⟨(spawnN (gen_range w.rng 2 10).1 (gen_range w.rng 2 10).2).1, ?_, ?_, ?_, ?_⟩
    · rw [tick_alive_obstacles w h, if_pos hmod]
    · rw [spawnN_length]
      exact gen_range_lb w.rng 2 10
    · rw [spawnN_length]
      exact gen_range_ub w.rng 2 10 (by norm_num)
    · exact spawnN_mem _ _
  · intro hmod
    rw [tick_alive_obstacles w h, if_neg hmod]

/-- Witness for C5: `exampleSpawnWorld` has timer `149` and an empty
queue, so its next tick passes check A and spawns a batch. -/
theorem C5_spawn_cadence_witness :
    (World.afterIntent exampleSpawnWorld).check_collisions = false ∧
    (149 + 1) % SPAWN_DELAY = 0 ∧
    (∃ batch : List (Position × Coverage),
      (World.tick exampleSpawnWorld).2.obstacles = movedCleaned exampleSpawnWorld ++ batch ∧
      2 ≤ batch.length ∧ batch.length < 10 ∧
      ∀ oc ∈ batch,
        oc.1.x = (WIDTH : Int) ∧ 0 ≤ oc.1.y ∧ oc.1.y < (HEIGHT : Int) ∧
        5 ≤ oc.2.width ∧ oc.2.width < 32 ∧ 5 ≤ oc.2.height ∧ oc.2.height < 32) :=
  ⟨by decide, by decide,
    (C5_spawn_cadence exampleSpawnWorld (by decide)).1 (by decide)⟩

/-- A tick of an obstacle-free, intent-free state whose incremented timer
is not a spawn multiple: alive, and the only change is the timer. -/
theorem tick_empty_no_action (w : World) (hobs : w.obstacles = [])
    (hact : w.last_action = none) (hmod : (w.timer + 1) % SPAWN_DELAY ≠ 0) :
    World.tick w =
      (true, { obstacles := [], player := w.player, last_action := none,
               timer := w.timer + 1, rng := w.rng }) := by
  unfold World.tick World.afterIntent World.check_collisions
  rw [hobs, hact]
  simp only [apply_action, List.any_nil, List.map_nil, Bool.false_eq_true, if_false, cleanup]
  rw [if_neg hmod]
  simp

/-- The first `SPAWN_DELAY - 1` states of a fresh intent-free world: the
queue stays empty, the player and the random source never change, no
intent appears, and the timer equals the number of calls. -/
theorem ticks_new_spec (seq : Nat → Nat) (k : Nat) (hk : k ≤ SPAWN_DELAY - 1) :
    World.ticks (World.new seq) k =
      { obstacles := [], player := (World.new seq).player, last_action := none,
        timer := k, rng := (World.new seq).rng } := by
  have hS : SPAWN_DELAY = 150 := rfl
  induction k with
  | zero => rfl
  | succ k ih =>
    have hk' : k ≤ SPAWN_DELAY - 1 := Nat.le_of_succ_le hk
    rw [World.ticks, ih hk']
    rw [tick_empty_no_action _ rfl rfl
      (by rw [hS] at hk; show (k + 1) % 150 ≠ 0; omega)]

/-- C6: for a fresh intent-free world, each of the first
`SPAWN_DELAY - 1 = 149` calls to `tick` returns `alive = true`, leaves the
player untouched, and advances the tick counter by exactly one with no
skips or repeats. -/
theorem C6_fresh_world_survives (seq : Nat → Nat) (k : Nat)
    (hk : k < SPAWN_DELAY - 1) :
    (World.tick (World.ticks (World.new seq) k)).1 = true ∧
    (World.ticks (World.new seq) (k + 1)).player = (World.new seq).player ∧
    (World.ticks (World.new seq) k).timer = k ∧
    (World.ticks (World.new seq) (k + 1)).timer = k + 1 := by
  have hS : SPAWN_DELAY = 150 := rfl
  have h1 := ticks_new_spec seq k (by omega)
  have h2 := ticks_new_spec seq (k + 1) (by rw [hS] at hk ⊢; omega)
  refine ⟨?_, ?_, ?_, ?_⟩
  · rw [h1, tick_empty_no_action _ rfl rfl
      (by rw [hS] at hk; show (k + 1) % 150 ≠ 0; omega)]
  · rw [h2]
  · rw [h1]
  · rw [h2]

/-- Witness for C6 at the constant-zero random stream and the first call. -/
theorem C6_fresh_world_survives_witness :
    0 < SPAWN_DELAY - 1 ∧
    ((World.tick (World.ticks (World.new fun _ => 0) 0)).1 = true ∧
     (World.ticks (World.new fun _ => 0) (0 + 1)).player = (World.new fun _ => 0).player ∧
     (World.ticks (World.new fun _ => 0) 0).timer = 0 ∧
     (World.ticks (World.new fun _ => 0) (0 + 1)).timer = 0 + 1) :=
  ⟨by decide, C6_fresh_world_survives (fun _ => 0) 0 (by decide)⟩

/-- Applying any (possibly absent) intent via the clamped moves keeps an
in-bounds player position in bounds. -/
theorem apply_action_bounds (p : Position) (a : Option Action)
    (hx0 : 0 ≤ p.x) (hx1 : p.x ≤ (WIDTH : Int))
    (hy0 : 0 ≤ p.y) (hy1 : p.y ≤ (HEIGHT : Int)) :
    0 ≤ (apply_action p a).x ∧ (apply_action p a).x ≤ (WIDTH : Int) ∧
    0 ≤ (apply_action p a).y ∧ (apply_action p a).y ≤ (HEIGHT : Int) := by
  cases a with
  | none => exact ⟨hx0, hx1, hy0, hy1⟩
  | some act =>
    cases act <;>
      · simp only [apply_action, Position.left, Position.right, Position.up, Position.down]
        split_ifs <;> refine ⟨?_, ?_, ?_, ?_⟩ <;> simp_all <;> omega

/-- `cleanup` only ever keeps obstacles that were already in the queue. -/
theorem cleanup_mem {l : List (Position × Coverage)} {oc : Position × Coverage}
    (h : oc ∈ cleanup l) : oc ∈ l := by
  induction l with
  | nil => simp [cleanup] at h
  | cons o rest ih =>
    by_cases hc : 0 < o.1.x + (o.2.width : Int)
    · simp only [cleanup, if_pos hc] at h
      exact h
    · simp only [cleanup, if_neg hc] at h
      exact List.mem_cons_of_mem _ (ih h)

/-- `cleanup` preserves any adjacent-pairs relation on the queue. -/
theorem cleanup_chain' {R : Position × Coverage → Position × Coverage → Prop}
    {l : List (Position × Coverage)} (h : List.Chain' R l) :
    List.Chain' R (cleanup l) := by
  induction l with
  | nil => simp [cleanup]
  | cons o rest ih =>
    by_cases hc : 0 < o.1.x + (o.2.width : Int)
    · simpa only [cleanup, if_pos hc] using h
    · simp only [cleanup, if_neg hc]
      exact ih h.tail

/-- A queue whose obstacles all share one x-coordinate is ordered. -/
theorem chain'_const_x {l : List (Position × Coverage)} {c : Int}
    (h : ∀ oc ∈ l, oc.1.x = c) :
    List.Chain' (fun a b => a.1.x ≤ b.1.x) l := by
  induction l with
  | nil => exact List.chain'_nil
  | cons a t ih =>
    rw [List.chain'_cons']
    refine ⟨?_, ih fun oc hm => h oc (List.mem_cons_of_mem _ hm)⟩
    intro y hy
    cases t with
    | nil => simp at hy
    | cons b t2 =>
      simp only [List.head?_cons, Option.mem_def, Option.some.injEq] at hy
      rw [h a (List.mem_cons_self _ _), ← hy,
        h b (List.mem_cons_of_mem _ (List.mem_cons_self _ _))]

/-- The player of the post-tick state is always the intent-moved player. -/
theorem tick_player (w : World) :
    (World.tick w).2.player = (apply_action w.player.1 w.last_action, w.player.2) := by
  unfold World.tick
  dsimp only
  split_ifs <;> rfl

/-- When collision check A fires, the queue is untouched. -/
theorem tick_obstacles_dead (w : World)
    (h : w.afterIntent.check_collisions = true) :
    (World.tick w).2.obstacles = w.obstacles := by
  unfold World.tick
  simp [h, afterIntent_obstacles]

/-- The state invariant holds for a fresh world. -/
theorem winv_new (seq : Nat → Nat) : WorldInv (World.new seq) := by
  have hW : WIDTH = 480 := rfl
  have hH : HEIGHT = 480 := rfl
  have hx := gen_range_ub ⟨seq, 0⟩ 0 (WIDTH / 2) (by rw [hW]; norm_num)
  have hy := gen_range_ub (gen_range ⟨seq, 0⟩ 0 (WIDTH / 2)).2 0 (HEIGHT / 2)
    (by rw [hH]; norm_num)
  refine ⟨⟨Int.natCast_nonneg _, ?_, Int.natCast_nonneg _, ?_⟩, List.chain'_nil, ?_⟩
  · show ((gen_range ⟨seq, 0⟩ 0 (WIDTH / 2)).1 : Int) ≤ (WIDTH : Int)
    rw [hW] at hx ⊢
    have : (gen_range ⟨seq, 0⟩ 0 (480 / 2)).1 ≤ 480 := by omega
    exact_mod_cast this
  · show ((gen_range (gen_range ⟨seq, 0⟩ 0 (WIDTH / 2)).2 0 (HEIGHT / 2)).1 : Int) ≤ (HEIGHT : Int)
    rw [hW, hH] at hy ⊢
    have : (gen_range (gen_range ⟨seq, 0⟩ 0 (480 / 2)).2 0 (480 / 2)).1 ≤ 480 := by omega
    exact_mod_cast this
  · intro oc hm
    simp [World.new] at hm

/-- Recording an intent does not disturb the state invariant. -/
theorem winv_intent {w : World} (a : Action) (h : WorldInv w) :
    WorldInv (w.set_intent a) := h

/-- The state invariant is preserved by one `tick`. -/
theorem winv_tick {w : World} (h : WorldInv w) : WorldInv (World.tick w).2 := by
  obtain ⟨hp, hord, hle⟩ := h
  have hplayer : PlayerInBounds (World.tick w).2 := by
    have hb := apply_action_bounds w.player.1 w.last_action hp.1 hp.2.1 hp.2.2.1 hp.2.2.2
    unfold PlayerInBounds
    rw [tick_player]
    exact hb
  by_cases hA : w.afterIntent.check_collisions = true
  · refine ⟨hplayer, ?_, ?_⟩
    · unfold ObstaclesOrdered
      rw [tick_obstacles_dead w hA]
      exact hord
    · unfold ObstaclesLeWidth
      rw [tick_obstacles_dead w hA]
      exact hle
  · rw [Bool.not_eq_true] at hA
    have hmovedord :
        List.Chain' (fun a b => a.1.x ≤ b.1.x)
          (w.obstacles.map fun oc => (oc.1.unclamped_left, oc.2)) := by
      rw [List.chain'_map]
      exact hord.imp fun a b hab => by
        simp only [Position.unclamped_left]
        omega
    have hcleanord : List.Chain' (fun a b => a.1.x ≤ b.1.x) (movedCleaned w) :=
      cleanup_chain' hmovedord
    have hcleanle : ∀ oc ∈ movedCleaned w, oc.1.x ≤ (WIDTH : Int) - 1 := by
      intro oc hm
      have hm2 : oc ∈ w.obstacles.map (fun oc => (oc.1.unclamped_left, oc.2)) :=
        cleanup_mem hm
      obtain ⟨b, hb, rfl⟩ := List.mem_map.mp hm2
      have := hle b hb
      simp only [Position.unclamped_left]
      omega
    have hobs := tick_alive_obstacles w hA
    by_cases hmod : (w.timer + 1) % SPAWN_DELAY = 0
    · rw [if_pos hmod] at hobs
      have hbx : ∀ oc ∈ (spawnN (gen_range w.rng 2 10).1 (gen_range w.rng 2 10).2).1,
          oc.1.x = (WIDTH : Int) := fun oc hm => (spawnN_mem _ _ oc hm).1
      refine ⟨hplayer, ?_, ?_⟩
      · unfold ObstaclesOrdered
        rw [hobs, List.chain'_append]
        refine ⟨hcleanord, chain'_const_x hbx, ?_⟩
        intro x hx y hy
        have hxm : x ∈ movedCleaned w := by
          obtain ⟨hne, heq⟩ := List.mem_getLast?_eq_getLast hx
          rw [heq]
          exact List.getLast_mem hne
        have hy' : y ∈ (spawnN (gen_range w.rng 2 10).1 (gen_range w.rng 2 10).2).1 := by
          cases hb : (spawnN (gen_range w.rng 2 10).1 (gen_range w.rng 2 10).2).1 with
          | nil => rw [hb] at hy; simp at hy
          | cons b t =>
            rw [hb] at hy
            simp only [List.head?_cons, Option.mem_def, Option.some.injEq] at hy
            rw [hy]
            exact List.mem_cons_self _ _
        have := hcleanle x hxm
        rw [hbx y hy']
        omega
      · unfold ObstaclesLeWidth
        rw [hobs]
        intro oc hm
        rcases List.mem_append.mp hm with hm1 | hm2
        · have := hcleanle oc hm1
          omega
        · rw [hbx oc hm2]
    · rw [if_neg hmod] at hobs
      refine ⟨hplayer, ?_, ?_⟩
      · unfold ObstaclesOrdered
        rw [hobs]
        exact hcleanord
      · unfold ObstaclesLeWidth
        rw [hobs]
        intro oc hm
        have := hcleanle oc hm
        omega

/-- Every reachable state satisfies the combined invariant. -/
theorem reachable_winv {w : World} (h : Reachable w) : WorldInv w := by
  induction h with
  | new seq => exact winv_new seq
  | intent a _ ih => exact winv_intent a ih
  | step _ ih => exact winv_tick ih

/-- C7: in every reachable world the player position satisfies
`0 ≤ x ≤ WIDTH` and `0 ≤ y ≤ HEIGHT`: established by `World.new` and
preserved by every `tick` under any sequence of intents. -/
theorem C7_player_always_in_bounds (w : World) (h : Reachable w) :
    0 ≤ w.player.1.x ∧ w.player.1.x ≤ (WIDTH : Int) ∧
    0 ≤ w.player.1.y ∧ w.player.1.y ≤ (HEIGHT : Int) :=
  (reachable_winv h).1

/-- Witness for C7 at the freshly constructed world over the constant-zero
random stream. -/
theorem C7_player_always_in_bounds_witness :
    0 ≤ (World.new fun _ => 0).player.1.x ∧
    (World.new fun _ => 0).player.1.x ≤ (WIDTH : Int) ∧
    0 ≤ (World.new fun _ => 0).player.1.y ∧
    (World.new fun _ => 0).player.1.y ≤ (HEIGHT : Int) :=
  C7_player_always_in_bounds _ (Reachable.new _)

/-- C8: in every reachable world the obstacle queue's x-coordinates are
non-decreasing from front to back: obstacles move left uniformly, spawns
append at the back at `x = WIDTH`, and removal happens only at the
front. -/
theorem C8_queue_x_nondecreasing (w : World) (h : Reachable w) :
    List.Chain' (fun a b => a.1.x ≤ b.1.x) w.obstacles :=
  (reachable_winv h).2.1

/-- Witness for C8: the state reached by ticking a fresh world once. -/
theorem C8_queue_x_nondecreasing_witness :
    List.Chain' (fun a b => a.1.x ≤ b.1.x)
      (World.tick (World.new fun _ => 0)).2.obstacles :=
  C8_queue_x_nondecreasing _ (Reachable.step (Reachable.new _))

/-- Once the accumulator is an error, the rest of the fold changes
nothing: in particular the callback is never invoked again. -/
theorem foldl_draw_step_error {σ O E : Type} (drawer : σ → Rect → σ × Except E O)
    (s : σ) (e : E) (l : List Rect) :
    l.foldl (draw_step drawer) (s, Except.error e) = (s, Except.error e) := by
  induction l with
  | nil => rfl
  | cons r rest ih => exact ih

/-- The source fold equals the specification-side loop that stops at the
first error. -/
theorem foldl_draw_step_eq_drawSpec {σ O E : Type} (drawer : σ → Rect → σ × Except E O)
    (l : List Rect) : ∀ (s : σ) (res : Except E O),
    l.foldl (draw_step drawer) (s, res) = drawSpec drawer s res l := by
  induction l with
  | nil => intro s res; cases res <;> rfl
  | cons r rest ih =>
    intro s res
    cases res with
    | ok v =>
      show rest.foldl (draw_step drawer) (drawer s r) =
        drawSpec drawer (drawer s r).1 (drawer s r).2 rest
      rw [← ih (drawer s r).1 (drawer s r).2]
    | error e =>
      show rest.foldl (draw_step drawer) (s, Except.error e) = (s, Except.error e)
      exact foldl_draw_step_error drawer s e rest

/-- When the callback always succeeds, the spec-side loop ends in `Ok`. -/
theorem drawSpec_all_ok {σ O E : Type} (drawer : σ → Rect → σ × Except E O)
    (h : ∀ (s : σ) (r : Rect), ∃ v : O, (drawer s r).2 = Except.ok v)
    (l : List Rect) : ∀ (s : σ) (v0 : O),
    ∃ v : O, (drawSpec drawer s (Except.ok v0) l).2 = Except.ok v := by
  induction l with
  | nil => intro s v0; exact ⟨v0, rfl⟩
  | cons r rest ih =>
    intro s v0
    obtain ⟨v1, hv⟩ := h s r
    show ∃ v, (drawSpec drawer (drawer s r).1 (drawer s r).2 rest).2 = Except.ok v
    rw [hv]
    exact ih (drawer s r).1 v1

/-- C9: `draw_obstacles` equals the loop that invokes the callback on the
obstacle rectangles in order and stops at the first error, returning it —
so no later obstacle reaches the callback; when the callback always
succeeds the result is a success value; and the shell maps a returned
error to the terminal `Finished.Error` outcome, a success to continuing. -/
theorem C9_draw_failure_aborts :
    (∀ (σ O E : Type) (drawer : σ → Rect → σ × Except E O) (dflt : O) (s0 : σ)
       (obstacles : List (Position × Coverage)),
      draw_obstacles drawer dflt s0 obstacles =
        drawSpec drawer s0 (Except.ok dflt)
          (obstacles.map fun oc => obj_to_rect oc.1 oc.2)) ∧
    (∀ (σ O E : Type) (drawer : σ → Rect → σ × Except E O) (dflt : O) (s0 : σ)
       (obstacles : List (Position × Coverage)),
      (∀ (s : σ) (r : Rect), ∃ v : O, (drawer s r).2 = Except.ok v) →
      ∃ v : O, (draw_obstacles drawer dflt s0 obstacles).2 = Except.ok v) ∧
    (∀ (O E : Type) (e : E),
      handle_draw_result (Except.error e : Except E O) = some Finished.Error) ∧
    (∀ (O E : Type) (v : O),
      handle_draw_result (Except.ok v : Except E O) = none) := by
  refine ⟨?_, ?_, fun O E e => rfl, fun O E v => rfl⟩
  · intro σ O E drawer dflt s0 obstacles
    exact foldl_draw_step_eq_drawSpec drawer _ s0 (Except.ok dflt)
  · intro σ O E drawer dflt s0 obstacles h
    unfold draw_obstacles
    rw [foldl_draw_step_eq_drawSpec drawer _ s0 (Except.ok dflt)]
    exact drawSpec_all_ok drawer h _ s0 dflt

/-- Witness for C9: the always-`Ok` counting callback over a one-obstacle
queue yields a success value. -/
theorem C9_draw_failure_aborts_witness :
    (∀ (s : Nat) (r : Rect), ∃ v : Nat, (exampleDrawer s r).2 = Except.ok v) ∧
    ∃ v : Nat,
      (draw_obstacles exampleDrawer 0 0 [(⟨1, 2⟩, ⟨3, 4⟩)]).2 = Except.ok v :=
  ⟨fun _ _ => ⟨0, rfl⟩,
    C9_draw_failure_aborts.2.1 Nat Nat Nat exampleDrawer 0 0 [(⟨1, 2⟩, ⟨3, 4⟩)]
      fun _ _ => ⟨0, rfl⟩⟩

end Platformer
